import Mathlib

/-
  Verification development for the financial-health-platform repository.

  The repository ships the React frontend, the SQL schema and auth pages;
  the FastAPI scoring core (ratio calculator, health scorer, risk detector,
  rating classifier, cost optimizer, forecaster, benchmark comparator,
  assessment assembler) is not present in the available sources, so those
  stages are modelled from the design document. Frontend helpers
  (getKeyFactors, getRatingColor, getRatingExplanation, handleSignup) are
  embedded directly from the JSX sources. Monetary quantities and ratios
  are modelled as exact rationals.
-/

namespace FinHealth

/-- Modelled from the spec: the FinancialStatement input record (spec section 3).
All numeric fields are nullable; absence is a first-class state, not zero.
The trailing cash-flow history (risk detector input, spec 4.3) and the
prior-year revenue (forecaster input, spec 4.6) are part of the input record
supplied upstream. -/
structure FinancialStatement where
  fiscal_year : Nat
  revenue : Option ℚ
  expenses : Option ℚ
  net_profit : Option ℚ
  cash_flow : Option ℚ
  accounts_receivable : Option ℚ
  accounts_payable : Option ℚ
  inventory : Option ℚ
  total_assets : Option ℚ
  total_liabilities : Option ℚ
  equity : Option ℚ
  expense_breakdown : List (String × ℚ)
  revenue_streams : List (String × ℚ)
  prior_revenue : Option ℚ
  cash_flow_history : List ℚ
deriving DecidableEq

/-- Modelled from the spec: the Business record (spec section 3), read-only
input to benchmarking and forecasting defaults. -/
structure Business where
  industry : String
  business_type : String
  annual_revenue : Option ℚ
  employee_count : Option Nat
deriving DecidableEq

/-- Modelled from the spec: the derived RatioSet (spec section 3), a mapping
ratio-name to nullable numeric value, embedded in Assessment key findings. -/
structure RatioSet where
  profit_margin : Option ℚ
  current_ratio : Option ℚ
  debt_to_equity : Option ℚ
  roe : Option ℚ
  cash_flow_margin : Option ℚ
deriving DecidableEq

/-- Modelled from the spec: division policy of the ratio calculator
(spec 4.1): a ratio whose numerator is unavailable or whose denominator is
null or zero is set to null rather than computed; division by zero is a
defined null-producing condition, not an error. -/
def safeDiv (num den : Option ℚ) : Option ℚ :=
  match num, den with
  | some n, some d => if d = 0 then none else some (n / d)
  | _, _ => none

/-- Modelled from the spec: nullable addition used for the liquidity proxy
numerator (accounts_receivable + inventory, spec 4.1); null when either
operand is absent. -/
def optAdd (a b : Option ℚ) : Option ℚ :=
  match a, b with
  | some x, some y => some (x + y)
  | _, _ => none

/-- Modelled from the spec: the Ratio Calculator (spec 4.1). Computes the
five standard ratios from raw statement fields under the null policy of
safeDiv; it never raises and never substitutes a default value. -/
def calculateRatios (fs : FinancialStatement) : RatioSet :=
  { profit_margin := safeDiv fs.net_profit fs.revenue
    current_ratio := safeDiv (optAdd fs.accounts_receivable fs.inventory) fs.accounts_payable
    debt_to_equity := safeDiv fs.total_liabilities fs.equity
    roe := safeDiv fs.net_profit fs.equity
    cash_flow_margin := safeDiv fs.cash_flow fs.revenue }

/-- Clamp a rational into the closed interval between 0 and 100 (spec 4.2:
the final score is clamped to that interval). -/
def clamp0100 (x : ℚ) : ℚ := max 0 (min 100 x)

/-- Round a rational to two decimal places (spec 4.2: the final score is
rounded to two decimals). -/
def round2 (x : ℚ) : ℚ := (round (x * 100) : ℚ) / 100

/-- Round a rational to one decimal place (used by the dashboard display of
percentage metrics, Dashboard.jsx toFixed with one digit). -/
def round1 (x : ℚ) : ℚ := (round (x * 10) : ℚ) / 10

/-- Modelled from the spec: normalization of profit margin to a sub-score
(spec 4.2: at most 0 maps to 0, at least 0.20 maps to 100, linear
interpolation between). -/
def normProfitMargin (x : ℚ) : ℚ := clamp0100 (500 * x)

/-- Modelled from the spec: normalization of the current ratio to a
sub-score. The spec fixes only the shape (fixed thresholds, linear
interpolation); the model uses 0 at 0 rising linearly to 100 at 2. -/
def normCurrentRatio (x : ℚ) : ℚ := clamp0100 (50 * x)

/-- Modelled from the spec: normalization of debt-to-equity, inverted since
lower is better (spec 4.2); the model uses 100 at 0 falling linearly to 0
at 4. -/
def normDebtToEquity (x : ℚ) : ℚ := clamp0100 (100 - 25 * x)

/-- Modelled from the spec: normalization of return on equity; the model
uses 0 at 0 rising linearly to 100 at 0.20, the same shape as the
profit-margin example in spec 4.2. -/
def normRoe (x : ℚ) : ℚ := clamp0100 (500 * x)

/-- Modelled from the spec: the weighted parts of the health score
(spec 4.2, default weights 0.30, 0.20, 0.25, 0.25). A null ratio
contributes no part, so its weight is redistributed proportionally when
the weighted sum is divided by the sum of available weights. -/
def scoreParts (rs : RatioSet) : List (ℚ × ℚ) :=
  (match rs.profit_margin with
   | some v => [((3 : ℚ) / 10, normProfitMargin v)]
   | none => []) ++
  (match rs.current_ratio with
   | some v => [((1 : ℚ) / 5, normCurrentRatio v)]
   | none => []) ++
  (match rs.debt_to_equity with
   | some v => [((1 : ℚ) / 4, normDebtToEquity v)]
   | none => []) ++
  (match rs.roe with
   | some v => [((1 : ℚ) / 4, normRoe v)]
   | none => [])

/-- Modelled from the spec: the raw weighted score over available ratios
(spec 4.2); undefined (null) when all four scored ratios are null. -/
def healthScoreRaw (rs : RatioSet) : Option ℚ :=
  let parts := scoreParts rs
  if parts.isEmpty then none
  else some ((parts.map fun p => p.1 * p.2).sum / (parts.map Prod.fst).sum)

/-- Modelled from the spec: the Health Scorer output (spec 4.2): the raw
weighted score clamped to the 0 to 100 interval and rounded to two
decimals, or null on insufficient data. -/
def healthScore (rs : RatioSet) : Option ℚ :=
  (healthScoreRaw rs).map fun raw => round2 (clamp0100 raw)

theorem clamp0100_nonneg (x : ℚ) : 0 ≤ clamp0100 x := le_max_left 0 _

theorem clamp0100_le (x : ℚ) : clamp0100 x ≤ 100 :=
  max_le (by norm_num) (min_le_left _ _)

theorem round2_nonneg (x : ℚ) (h : 0 ≤ x) : 0 ≤ round2 x := by
  have h1 : (0 : ℤ) ≤ round (x * 100) := by
    rw [round_eq]
    exact Int.floor_nonneg.mpr (by linarith)
  have h2 : (0 : ℚ) ≤ (round (x * 100) : ℚ) := by exact_mod_cast h1
  unfold round2
  positivity

theorem round2_le_100 (x : ℚ) (h : x ≤ 100) : round2 x ≤ 100 := by
  have h1 : round (x * 100) = ⌊x * 100 + 1 / 2⌋ := round_eq _
  have h2 : (⌊x * 100 + 1 / 2⌋ : ℚ) ≤ x * 100 + 1 / 2 := Int.floor_le _
  have h3 : (round (x * 100) : ℚ) < 10001 := by
    rw [h1]; linarith
  have h4 : round (x * 100) < 10001 := by exact_mod_cast h3
  have h5 : (round (x * 100) : ℚ) ≤ 10000 := by
    have : round (x * 100) ≤ 10000 := by omega
    exact_mod_cast this
  unfold round2
  linarith

/-- Claim C1: for every ratio set, the assembled financial health score is
either null or a number within the closed interval from 0 to 100, and when
numeric it is exactly the raw weighted score clamped to that interval and
rounded to two decimals. -/
theorem claim_C1 (rs : RatioSet) :
    healthScore rs = none ∨
      ∃ raw q, healthScoreRaw rs = some raw ∧ healthScore rs = some q ∧
        q = round2 (clamp0100 raw) ∧ 0 ≤ q ∧ q ≤ 100 := by
  cases h : healthScoreRaw rs with
  | none => exact Or.inl (by simp [healthScore, h])
  | some raw =>
      refine Or.inr ⟨raw, round2 (clamp0100 raw), rfl, by simp [healthScore, h], rfl, ?_, ?_⟩
      · exact round2_nonneg _ (clamp0100_nonneg raw)
      · exact round2_le_100 _ (clamp0100_le raw)

/-- Claim C6: the ratio calculator computes profit margin as net profit
divided by revenue exactly when revenue is present and nonzero, and yields
null when revenue is null or zero; the computation is a total function, so
it never raises and never substitutes a default value. -/
theorem claim_C6 (fs : FinancialStatement) (np : ℚ)
    (hnp : fs.net_profit = some np) :
    (∀ r : ℚ, fs.revenue = some r → r ≠ 0 →
        (calculateRatios fs).profit_margin = some (np / r)) ∧
      ((fs.revenue = none ∨ fs.revenue = some 0) →
        (calculateRatios fs).profit_margin = none) := by
  constructor
  · intro r hr hne
    simp [calculateRatios, safeDiv, hnp, hr, hne]
  · intro hr
    rcases hr with hr | hr <;> simp [calculateRatios, safeDiv, hnp, hr]

/-- Concrete statement used by the spec example: revenue 100000 and net
profit 15000 give a profit margin of 0.15. -/
def exampleStatement : FinancialStatement :=
  { fiscal_year := 2024
    revenue := some 100000
    expenses := some 85000
    net_profit := some 15000
    cash_flow := some 5000
    accounts_receivable := some 20000
    accounts_payable := some 15000
    inventory := some 5000
    total_assets := some 120000
    total_liabilities := some 60000
    equity := some 30000
    expense_breakdown := []
    revenue_streams := []
    prior_revenue := none
    cash_flow_history := [] }

/-- Witness for claim C6 at the spec example: revenue 100000 and net profit
15000 yield a profit margin of 15 percent. -/
theorem claim_C6_witness :
    (calculateRatios exampleStatement).profit_margin = some (3 / 20) := by
  have h := (claim_C6 exampleStatement 15000 rfl).1 100000 rfl (by norm_num)
  rw [h]
  norm_num

/-- Modelled from the spec: risk severity levels (spec section 3), ordered
High above Medium above Low. -/
inductive Severity where
  | Low
  | Medium
  | High
deriving DecidableEq

/-- Numeric rank of a severity, encoding the order High above Medium above
Low used to take the maximum severity. -/
def sevRank : Severity → Nat
  | Severity.Low => 0
  | Severity.Medium => 1
  | Severity.High => 2

/-- Maximum of two severities under the High above Medium above Low order. -/
def sevMax (a b : Severity) : Severity :=
  if sevRank a < sevRank b then b else a

/-- Modelled from the spec: a typed, severity-tagged risk finding
(spec section 3), immutable once produced. -/
structure RiskFinding where
  type : String
  severity : Severity
  description : String
deriving DecidableEq

/-- Modelled from the spec: detection of two or more consecutive prior
periods of declining cash flow (spec 4.3); the history list is given in
chronological order and the rule fires when some three consecutive entries
strictly decrease twice in a row. Absent or short history skips the rule. -/
def decliningTwice : List ℚ → Bool
  | a :: b :: c :: rest => (b < a && c < b) || decliningTwice (b :: c :: rest)
  | _ => false

/-- Modelled from the spec: the Risk Detector rule set (spec 4.3), each rule
evaluated independently: negative profit margin gives a High profitability
risk; a current ratio below 1 gives a High liquidity risk; debt-to-equity
above 2 gives a Medium leverage risk, escalated to High above 4; a twice
declining cash-flow history gives a Medium cash-flow risk. -/
def detectRisks (rs : RatioSet) (history : List ℚ) : List RiskFinding :=
  (match rs.profit_margin with
   | some pm =>
       if pm < 0 then
         [{ type := r"Profitability risk", severity := Severity.High,
            description := r"Net profit margin is negative" }]
       else []
   | none => []) ++
  (match rs.current_ratio with
   | some cr =>
       if cr < 1 then
         [{ type := r"Liquidity risk", severity := Severity.High,
            description := r"Current ratio is below 1" }]
       else []
   | none => []) ++
  (match rs.debt_to_equity with
   | some de =>
       if 4 < de then
         [{ type := r"Leverage risk", severity := Severity.High,
            description := r"Debt-to-equity ratio is above 4" }]
       else if 2 < de then
         [{ type := r"Leverage risk", severity := Severity.Medium,
            description := r"Debt-to-equity ratio is above 2" }]
       else []
   | none => []) ++
  (if decliningTwice history then
     [{ type := r"Cash flow risk", severity := Severity.Medium,
        description := r"Cash flow declined over consecutive periods" }]
   else [])

/-- Modelled from the spec: the overall risk level is the maximum severity
among the findings, Low when the set is empty (spec 4.3). -/
def riskLevel (risks : List RiskFinding) : Severity :=
  risks.foldr (fun f acc => sevMax f.severity acc) Severity.Low

theorem sevMax_eq_or (a b : Severity) : sevMax a b = a ∨ sevMax a b = b := by
  unfold sevMax
  split <;> simp

theorem sevRank_le_sevMax_left (a b : Severity) :
    sevRank a ≤ sevRank (sevMax a b) := by
  unfold sevMax
  split <;> omega

theorem sevRank_le_sevMax_right (a b : Severity) :
    sevRank b ≤ sevRank (sevMax a b) := by
  unfold sevMax
  split <;> omega

theorem sevRank_le_two (a : Severity) : sevRank a ≤ 2 := by
  cases a <;> simp [sevRank]

theorem sevRank_eq_two_iff (a : Severity) : sevRank a = 2 ↔ a = Severity.High := by
  cases a <;> simp [sevRank]

theorem riskLevel_le (risks : List RiskFinding) :
    ∀ f ∈ risks, sevRank f.severity ≤ sevRank (riskLevel risks) := by
  induction risks with
  | nil => intro f hf; cases hf
  | cons g gs ih =>
      intro f hf
      rcases List.mem_cons.mp hf with h | h
      · subst h
        exact sevRank_le_sevMax_left _ _
      · calc sevRank f.severity ≤ sevRank (riskLevel gs) := ih f h
          _ ≤ sevRank (sevMax g.severity (riskLevel gs)) := sevRank_le_sevMax_right _ _

theorem sevMax_low (a : Severity) : sevMax a Severity.Low = a := by
  cases a <;> rfl

theorem riskLevel_cons (g : RiskFinding) (gs : List RiskFinding) :
    riskLevel (g :: gs) = sevMax g.severity (riskLevel gs) := rfl

theorem riskLevel_mem (risks : List RiskFinding) (h : risks ≠ []) :
    riskLevel risks ∈ risks.map RiskFinding.severity := by
  induction risks with
  | nil => exact absurd rfl h
  | cons g gs ih =>
      cases hgs : gs with
      | nil =>
          subst hgs
          simp [riskLevel, sevMax_low]
      | cons g2 gs2 =>
          rw [riskLevel_cons, ← hgs]
          rcases sevMax_eq_or g.severity (riskLevel gs) with h1 | h1
          · rw [h1]
            simp
          · rw [h1]
            have hne : gs ≠ [] := by rw [hgs]; simp
            simp only [List.map_cons]
            exact List.mem_cons_of_mem _ (ih hne)

theorem riskLevel_high_of_mem (risks : List RiskFinding)
    (h : ∃ f, f ∈ risks ∧ f.severity = Severity.High) :
    riskLevel risks = Severity.High := by
  obtain ⟨f, hmem, hsev⟩ := h
  have h1 := riskLevel_le risks f hmem
  rw [hsev] at h1
  have h1' : 2 ≤ sevRank (riskLevel risks) := h1
  have h2 := sevRank_le_two (riskLevel risks)
  exact (sevRank_eq_two_iff _).mp (by omega)

/-- Claim C3: the overall risk level equals the maximum severity among the
identified risks under the order High above Medium above Low: it is Low on
an empty finding list, it dominates every finding severity, and on a
nonempty list it is itself one of the finding severities. -/
theorem claim_C3 (risks : List RiskFinding) :
    (risks = [] → riskLevel risks = Severity.Low) ∧
      (∀ f ∈ risks, sevRank f.severity ≤ sevRank (riskLevel risks)) ∧
      (risks ≠ [] → riskLevel risks ∈ risks.map RiskFinding.severity) := by
  refine ⟨?_, riskLevel_le risks, riskLevel_mem risks⟩
  intro h
  subst h
  rfl

/-- Sample finding list used by the claim C3 witness. -/
def sampleRisks : List RiskFinding :=
  [{ type := r"Leverage risk", severity := Severity.Medium,
     description := r"Debt-to-equity ratio is above 2" },
   { type := r"Liquidity risk", severity := Severity.High,
     description := r"Current ratio is below 1" }]

/-- Witness for claim C3 at a concrete finding list with one Medium and one
High finding: the computed level is a member of the listed severities, and
the empty list gives Low. -/
theorem claim_C3_witness :
    riskLevel sampleRisks ∈ sampleRisks.map RiskFinding.severity ∧
      riskLevel [] = Severity.Low :=
  ⟨(claim_C3 sampleRisks).2.2 (by decide), (claim_C3 []).1 rfl⟩

/-- Modelled from the spec: the letter creditworthiness rating (spec 4.4),
A best to D worst. -/
inductive Rating where
  | A
  | B
  | C
  | D
deriving DecidableEq

/-- Modelled from the spec: capping a rating at C (spec 4.4 override for an
acute High-severity risk): A and B fall to C, C and D are unchanged. -/
def capAtC : Rating → Rating
  | Rating.A => Rating.C
  | Rating.B => Rating.C
  | Rating.C => Rating.C
  | Rating.D => Rating.D

/-- Modelled from the spec: the Rating Classifier (spec 4.4). Base mapping
by score: at least 80 gives A, at least 60 gives B, at least 40 gives C,
anything else including a null score gives D. Stated business rule: when
the overall risk level is High the rating is capped at C regardless of
score, so a numerically strong score cannot mask an acute risk. -/
def classifyRating (score : Option ℚ) (lvl : Severity) : Rating :=
  let base :=
    match score with
    | none => Rating.D
    | some s =>
        if 80 ≤ s then Rating.A
        else if 60 ≤ s then Rating.B
        else if 40 ≤ s then Rating.C
        else Rating.D
  if lvl = Severity.High then capAtC base else base

/-- Claim C2: if the risk detector output contains at least one
High-severity finding, the classified creditworthiness rating is C or D,
never A or B, regardless of the numeric health score. -/
theorem claim_C2 (score : Option ℚ) (risks : List RiskFinding)
    (h : ∃ f, f ∈ risks ∧ f.severity = Severity.High) :
    classifyRating score (riskLevel risks) = Rating.C ∨
      classifyRating score (riskLevel risks) = Rating.D := by
  rw [riskLevel_high_of_mem risks h]
  unfold classifyRating
  simp only [if_pos rfl]
  cases score with
  | none => simp [capAtC]
  | some s =>
      by_cases h80 : 80 ≤ s <;> by_cases h60 : 60 ≤ s <;> by_cases h40 : 40 ≤ s <;>
        simp [h80, h60, h40, capAtC]

/-- Witness for claim C2: with a health score of 95 and one High liquidity
finding, the rating is C or D. -/
theorem claim_C2_witness :
    classifyRating (some 95)
        (riskLevel [{ type := r"Liquidity risk", severity := Severity.High,
                      description := r"Current ratio is below 1" }]) = Rating.C ∨
      classifyRating (some 95)
        (riskLevel [{ type := r"Liquidity risk", severity := Severity.High,
                      description := r"Current ratio is below 1" }]) = Rating.D :=
  claim_C2 (some 95) _ ⟨_, List.mem_singleton.mpr rfl, rfl⟩

/-- Modelled from the spec: a cost-optimization suggestion (spec section 3)
with its templated text and nonnegative potential savings. -/
structure CostSuggestion where
  category : String
  suggestion : String
  action : String
  potential_savings : ℚ
deriving DecidableEq

/-- Modelled from the spec: the suggestion built for a qualifying expense
category (spec 4.5): the text is templated by the category name and the
potential savings are the excess of the amount over 15 percent of
revenue. -/
def mkCostSuggestion (category : String) (amount revenue : ℚ) : CostSuggestion :=
  { category := category
    suggestion := r"Reduce " ++ category ++ r" spending toward 15 percent of revenue"
    action := r"Review " ++ category ++ r" contracts and negotiate better rates"
    potential_savings := amount - (3 / 20) * revenue }

/-- Modelled from the spec: the Cost Optimizer (spec 4.5): one suggestion
per expense category whose amount exceeds 15 percent of revenue; any key
present in the expense breakdown is eligible. -/
def costOptimizations (eb : List (String × ℚ)) (revenue : ℚ) : List CostSuggestion :=
  (eb.filter fun p => decide ((3 / 20) * revenue < p.2)).map
    fun p => mkCostSuggestion p.1 p.2 revenue

/-- Claim C5: a suggestion is emitted exactly for the expense-breakdown
entries whose amount exceeds 15 percent of revenue, each emitted
suggestion records potential savings equal to the amount minus 15 percent
of revenue, and every emitted potential saving is nonnegative. -/
theorem claim_C5 (eb : List (String × ℚ)) (revenue : ℚ) :
    (∀ s : CostSuggestion,
        s ∈ costOptimizations eb revenue ↔
          ∃ p, p ∈ eb ∧ (3 / 20) * revenue < p.2 ∧
            s = mkCostSuggestion p.1 p.2 revenue) ∧
      (∀ s ∈ costOptimizations eb revenue,
        0 ≤ s.potential_savings) := by
  have hmem : ∀ s : CostSuggestion,
      s ∈ costOptimizations eb revenue ↔
        ∃ p, p ∈ eb ∧ (3 / 20) * revenue < p.2 ∧
          s = mkCostSuggestion p.1 p.2 revenue := by
    intro s
    unfold costOptimizations
    simp only [List.mem_map, List.mem_filter, decide_eq_true_eq]
    constructor
    · rintro ⟨p, ⟨hp, hlt⟩, hs⟩
      exact ⟨p, hp, hlt, hs.symm⟩
    · rintro ⟨p, hp, hlt, hs⟩
      exact ⟨p, ⟨hp, hlt⟩, hs.symm⟩
  refine ⟨hmem, ?_⟩
  intro s hs
  obtain ⟨p, _, hlt, hps⟩ := (hmem s).mp hs
  rw [hps]
  unfold mkCostSuggestion
  simp only
  linarith

/-- Sample expense breakdown used by the claim C5 witness. -/
def sampleBreakdown : List (String × ℚ) :=
  [(r"Rent", 500), (r"Misc", 10)]

/-- Witness for claim C5 at revenue 1000 with a rent amount of 500: the
rent suggestion is emitted (500 exceeds 150) and its potential savings of
350 are nonnegative. -/
theorem claim_C5_witness :
    mkCostSuggestion (r"Rent") 500 1000 ∈ costOptimizations sampleBreakdown 1000 ∧
      0 ≤ (mkCostSuggestion (r"Rent") 500 1000).potential_savings := by
  have h := claim_C5 sampleBreakdown 1000
  have hmem : mkCostSuggestion (r"Rent") 500 1000 ∈ costOptimizations sampleBreakdown 1000 :=
    (h.1 _).mpr ⟨((r"Rent"), 500), by simp [sampleBreakdown], by norm_num, rfl⟩
  exact ⟨hmem, h.2 _ hmem⟩

/-- Modelled from the spec: one projected-period revenue value in the
12-period extrapolation (spec section 3); index 0 is the period
immediately after the statement fiscal year. -/
structure ForecastPoint where
  period_index : Nat
  value : ℚ
deriving DecidableEq

/-- Modelled from the spec: the compounding projection loop of the
Forecaster (spec 4.6): each emitted point multiplies the running monthly
value by one plus the monthly growth rate. -/
def forecastGo (r : ℚ) : Nat → Nat → ℚ → List ForecastPoint
  | 0, _, _ => []
  | fuel + 1, i, current =>
      let nxt := current * (1 + r)
      { period_index := i, value := nxt } :: forecastGo r fuel (i + 1) nxt

/-- Modelled from the spec: the Forecaster output for a known revenue
(spec 4.6): twelve points compounded from the current monthly base, which
is revenue divided by 12. -/
def revenueForecast (revenue r : ℚ) : List ForecastPoint :=
  forecastGo r 12 0 (revenue / 12)

theorem forecastGo_length (r : ℚ) :
    ∀ (fuel i : Nat) (cur : ℚ), (forecastGo r fuel i cur).length = fuel := by
  intro fuel
  induction fuel with
  | zero => intro i cur; rfl
  | succ n ih =>
      intro i cur
      simp [forecastGo, ih]

theorem forecastGo_get (r : ℚ) :
    ∀ (fuel i : Nat) (cur : ℚ) (j : Nat), j < fuel →
      (forecastGo r fuel i cur)[j]? =
        some { period_index := i + j, value := cur * (1 + r) ^ (j + 1) } := by
  intro fuel
  induction fuel with
  | zero => intro i cur j hj; omega
  | succ n ih =>
      intro i cur j hj
      cases j with
      | zero =>
          simp [forecastGo]
      | succ k =>
          have hk : k < n := by omega
          simp only [forecastGo, List.getElem?_cons_succ]
          rw [ih (i + 1) (cur * (1 + r)) k hk]
          simp only [Option.some.injEq, ForecastPoint.mk.injEq]
          constructor
          · omega
          · ring

/-- Claim C4: for every known revenue and growth rate, the revenue
forecast is an ordered sequence of exactly twelve points whose point at
index i carries period index i and value equal to the monthly base,
revenue over 12, times one plus the rate to the power i plus one; in
particular the first value is the monthly base times one plus the rate. -/
theorem claim_C4 (v r : ℚ) :
    (revenueForecast v r).length = 12 ∧
      (∀ i : Nat, i < 12 →
        (revenueForecast v r)[i]? =
          some { period_index := i, value := v / 12 * (1 + r) ^ (i + 1) }) ∧
      (revenueForecast v r)[0]? =
        some { period_index := 0, value := v / 12 * (1 + r) } := by
  have hlen : (revenueForecast v r).length = 12 := forecastGo_length r 12 0 (v / 12)
  have hget : ∀ i : Nat, i < 12 →
      (revenueForecast v r)[i]? =
        some { period_index := i, value := v / 12 * (1 + r) ^ (i + 1) } := by
    intro i hi
    have h := forecastGo_get r 12 0 (v / 12) i hi
    simpa [revenueForecast] using h
  refine ⟨hlen, hget, ?_⟩
  have h0 := hget 0 (by norm_num)
  simpa using h0

/-- Witness for claim C4 at revenue 120 and rate 1: the point at index 3
has value 10 times 2 to the 4th, that is 160, and the forecast has twelve
points. -/
theorem claim_C4_witness :
    (revenueForecast 120 1).length = 12 ∧
      (revenueForecast 120 1)[3]? = some { period_index := 3, value := 160 } := by
  have h := claim_C4 120 1
  refine ⟨h.1, ?_⟩
  have h3 := h.2.1 3 (by norm_num)
  rw [h3]
  norm_num

/-- Modelled from the spec: the static per-industry benchmark reference
table (spec 4.7), external configuration mapping an industry name to a row
of ratio references, loaded upstream and passed in immutably. -/
def BenchmarkTable : Type := List (String × List (String × ℚ))

/-- Modelled from the spec: row lookup in the benchmark table (spec 4.7):
an unknown or missing industry silently falls back to the General row; no
error is raised. -/
def lookupRow (bt : BenchmarkTable) (industry : String) : List (String × ℚ) :=
  match (bt : List (String × List (String × ℚ))).find? (fun p => p.1 == industry) with
  | some row => row.2
  | none =>
      match (bt : List (String × List (String × ℚ))).find? (fun p => p.1 == r"General") with
      | some row => row.2
      | none => []

/-- Look up a ratio of the RatioSet by its wire name; unknown names give
null. -/
def ratioByName (rs : RatioSet) (name : String) : Option ℚ :=
  if name = r"profit_margin" then rs.profit_margin
  else if name = r"current_ratio" then rs.current_ratio
  else if name = r"debt_to_equity" then rs.debt_to_equity
  else if name = r"roe" then rs.roe
  else if name = r"cash_flow_margin" then rs.cash_flow_margin
  else none

/-- Modelled from the spec: the Benchmark Comparator (spec 4.7): pairs each
reference ratio of the industry row with the business own value. -/
def compareBenchmarks (rs : RatioSet) (industry : String) (bt : BenchmarkTable) :
    List (String × Option ℚ × ℚ) :=
  (lookupRow bt industry).map fun p => (p.1, ratioByName rs p.1, p.2)

/-- Modelled from the spec: the immutable Assessment record (spec section 3
and section 6), created once per analysis run. -/
structure Assessment where
  financial_health_score : Option ℚ
  creditworthiness_rating : Rating
  risk_level : Severity
  key_findings : RatioSet
  identified_risks : List RiskFinding
  cost_optimizations : List CostSuggestion
  revenue_forecast : List ForecastPoint
  benchmarks : List (String × Option ℚ × ℚ)
  insufficient_data : Bool
  created_at : Nat

/-- Modelled from the spec: the Assessment Assembler (spec 4.8), the pure
composition of stages 4.1 to 4.7. The monthly growth-rate derivation of
spec 4.6 takes a real 12th root, so the model receives it as an upstream
configured pure function of current and prior revenue, like the benchmark
table; the created_at timestamp is supplied by the caller and stored
verbatim. A null score marks insufficient data instead of a numeric
default. -/
def assemble (gRate : ℚ → Option ℚ → ℚ) (fs : FinancialStatement) (b : Business)
    (bt : BenchmarkTable) (now : Nat) : Assessment :=
  let rs := calculateRatios fs
  let score := healthScore rs
  let risks := detectRisks rs fs.cash_flow_history
  let lvl := riskLevel risks
  { financial_health_score := score
    creditworthiness_rating := classifyRating score lvl
    risk_level := lvl
    key_findings := rs
    identified_risks := risks
    cost_optimizations :=
      match fs.revenue with
      | some v => costOptimizations fs.expense_breakdown v
      | none => []
    revenue_forecast :=
      match fs.revenue with
      | some v => revenueForecast v (gRate v fs.prior_revenue)
      | none => []
    benchmarks := compareBenchmarks rs b.industry bt
    insufficient_data := score.isNone
    created_at := now }

/-- Equality of two assessments with the created_at field excluded from
the comparison (spec section 8 idempotence property). -/
def assessmentEqExceptCreatedAt (a₁ a₂ : Assessment) : Prop :=
  a₁.financial_health_score = a₂.financial_health_score ∧
    a₁.creditworthiness_rating = a₂.creditworthiness_rating ∧
    a₁.risk_level = a₂.risk_level ∧
    a₁.key_findings = a₂.key_findings ∧
    a₁.identified_risks = a₂.identified_risks ∧
    a₁.cost_optimizations = a₂.cost_optimizations ∧
    a₁.revenue_forecast = a₂.revenue_forecast ∧
    a₁.benchmarks = a₂.benchmarks ∧
    a₁.insufficient_data = a₂.insufficient_data

/-- Claim C7: the pipeline is deterministic: two runs of the assembler on
identical statement, business, benchmark-table and growth-configuration
inputs agree on every Assessment field except created_at, whatever
timestamps the two runs observe; no stage reads a clock or randomness
elsewhere. -/
theorem claim_C7 (gRate : ℚ → Option ℚ → ℚ) (fs : FinancialStatement)
    (b : Business) (bt : BenchmarkTable) (t₁ t₂ : Nat) :
    assessmentEqExceptCreatedAt (assemble gRate fs b bt t₁) (assemble gRate fs b bt t₂) :=
  ⟨rfl, rfl, rfl, rfl, rfl, rfl, rfl, rfl, rfl⟩

/-- Outcome trace of one handleSignup invocation (Signup page of the
frontend): how many registration POST requests were issued, the waits in
milliseconds inserted between consecutive attempts, and the reported
result, none for success and some message for the reported error. -/
structure SignupTrace where
  requests : Nat
  waits : List Nat
  result : Option String
deriving DecidableEq

/-- Retry loop of handleSignup (part_001 lines 199 to 234): with retries
remaining, POST once; on success stop at once, on failure remember the
error, decrement the counter and, when attempts remain, wait 1000
milliseconds before the next attempt; with the counter exhausted report
the last error. The parameter out gives the outcome of each attempt by
index, none for success. -/
def signupGo (out : Nat → Option String) : Nat → Nat → Option String → SignupTrace
  | _, 0, last => { requests := 0, waits := [], result := last }
  | i, rem + 1, _ =>
      match out i with
      | none => { requests := 1, waits := [], result := none }
      | some e =>
          let t := signupGo out (i + 1) rem (some e)
          { requests := t.requests + 1
            waits := (if rem = 0 then [] else [1000]) ++ t.waits
            result := t.result }

/-- handleSignup (part_001): an early password-mismatch check issues no
request; otherwise the retry loop runs with a counter of 3. -/
def handleSignup (passwordsMatch : Bool) (out : Nat → Option String) : SignupTrace :=
  if passwordsMatch then signupGo out 0 3 none
  else { requests := 0, waits := [], result := some (r"Passwords do not match") }

/-- Claim C8: every invocation of handleSignup issues at most 3
registration POST requests; the loop starts with a counter of 3, inserts a
1000 millisecond wait exactly between consecutive failed attempts, stops
issuing requests at the first successful response, and after the third
failure reports the last error instead of retrying further. -/
theorem claim_C8 (out : Nat → Option String) :
    (∀ pw : Bool, (handleSignup pw out).requests ≤ 3) ∧
      (handleSignup true out).waits =
        List.replicate ((handleSignup true out).requests - 1) 1000 ∧
      ((∀ j : Nat, j < 3 → out j ≠ none) →
        (handleSignup true out).requests = 3 ∧
          (handleSignup true out).result = out 2) ∧
      (∀ k : Nat, k < 3 → out k = none → (∀ j : Nat, j < k → out j ≠ none) →
        (handleSignup true out).requests = k + 1 ∧
          (handleSignup true out).result = none) := by
  rcases h0 : out 0 with _ | e0
  · refine ⟨?_, ?_, ?_, ?_⟩
    · intro pw
      cases pw <;> simp [handleSignup, signupGo, h0]
    · simp [handleSignup, signupGo, h0]
    · intro hall
      exact absurd h0 (hall 0 (by norm_num))
    · intro k hk hsucc hprev
      match k, hk with
      | 0, _ => simp [handleSignup, signupGo, h0]
      | 1, _ => exact absurd h0 (hprev 0 (by norm_num))
      | 2, _ => exact absurd h0 (hprev 0 (by norm_num))
  · rcases h1 : out 1 with _ | e1
    · refine ⟨?_, ?_, ?_, ?_⟩
      · intro pw
        cases pw <;> simp [handleSignup, signupGo, h0, h1]
      · simp [handleSignup, signupGo, h0, h1, List.replicate]
      · intro hall
        exact absurd h1 (hall 1 (by norm_num))
      · intro k hk hsucc hprev
        match k, hk with
        | 0, _ => rw [h0] at hsucc; exact absurd hsucc (by simp)
        | 1, _ => simp [handleSignup, signupGo, h0, h1]
        | 2, _ => exact absurd h1 (hprev 1 (by norm_num))
    · rcases h2 : out 2 with _ | e2
      · refine ⟨?_, ?_, ?_, ?_⟩
        · intro pw
          cases pw <;> simp [handleSignup, signupGo, h0, h1, h2]
        · simp [handleSignup, signupGo, h0, h1, h2, List.replicate]
        · intro hall
          exact absurd h2 (hall 2 (by norm_num))
        · intro k hk hsucc hprev
          match k, hk with
          | 0, _ => rw [h0] at hsucc; exact absurd hsucc (by simp)
          | 1, _ => rw [h1] at hsucc; exact absurd hsucc (by simp)
          | 2, _ => simp [handleSignup, signupGo, h0, h1, h2]
      · refine ⟨?_, ?_, ?_, ?_⟩
        · intro pw
          cases pw <;> simp [handleSignup, signupGo, h0, h1, h2]
        · simp [handleSignup, signupGo, h0, h1, h2, List.replicate]
        · intro hall
          simp [handleSignup, signupGo, h0, h1, h2]
        · intro k hk hsucc hprev
          match k, hk with
          | 0, _ => rw [h0] at hsucc; exact absurd hsucc (by simp)
          | 1, _ => rw [h1] at hsucc; exact absurd hsucc (by simp)
          | 2, _ => rw [h2] at hsucc; exact absurd hsucc (by simp)

/-- Outcome sequence used by the claim C8 witness: the first attempt fails
and the second succeeds. -/
def sampleOutcomes : Nat → Option String :=
  fun i => if i = 1 then none else some (r"network error")

/-- Witness for claim C8 at an outcome sequence failing once then
succeeding: exactly two requests are issued, one 1000 millisecond wait is
inserted, and success is reported. -/
theorem claim_C8_witness :
    (handleSignup true sampleOutcomes).requests = 2 ∧
      (handleSignup true sampleOutcomes).result = none ∧
      (handleSignup true sampleOutcomes).waits =
        List.replicate ((handleSignup true sampleOutcomes).requests - 1) 1000 := by
  have h := claim_C8 sampleOutcomes
  have h2 := h.2.2.2 1 (by norm_num) (by rfl) (by decide)
  exact ⟨h2.1, h2.2, h.2.1⟩

/-- Status tag of a dashboard key factor (Dashboard.jsx getKeyFactors):
the nested ternaries only ever produce good, fair or poor. -/
inductive FactorStatus where
  | good
  | fair
  | poor
deriving DecidableEq

/-- One key factor shown on the dashboard (Dashboard.jsx getKeyFactors).
The value field holds the displayed numeric quantity; the JavaScript
string formatting (toFixed plus the percent sign) is presentation only and
is modelled by the corresponding decimal rounding. -/
structure Factor where
  label : String
  value : ℚ
  status : FactorStatus
deriving DecidableEq

/-- The assessment shape consumed by getKeyFactors: a record whose
key_findings field may be absent (Dashboard.jsx reads
assessment.key_findings after a null check). -/
structure DashboardAssessment where
  key_findings : Option RatioSet
deriving DecidableEq

/-- getKeyFactors (Dashboard.jsx lines 57 to 94): the empty list for a null
assessment or a missing key_findings field; otherwise one factor per
defined ratio among profit_margin, current_ratio, debt_to_equity and roe,
in that fixed order, with the thresholds of the source ternaries. -/
def getKeyFactors (assessment : Option DashboardAssessment) : List Factor :=
  match assessment with
  | none => []
  | some a =>
      match a.key_findings with
      | none => []
      | some findings =>
          (match findings.profit_margin with
           | some pm =>
               [{ label := r"Profit Margin", value := round1 (pm * 100),
                  status :=
                    if 12 / 100 < pm then FactorStatus.good
                    else if 0 < pm then FactorStatus.fair
                    else FactorStatus.poor }]
           | none => []) ++
          (match findings.current_ratio with
           | some cr =>
               [{ label := r"Current Ratio", value := round2 cr,
                  status :=
                    if 3 / 2 < cr then FactorStatus.good
                    else if 1 < cr then FactorStatus.fair
                    else FactorStatus.poor }]
           | none => []) ++
          (match findings.debt_to_equity with
           | some de =>
               [{ label := r"Debt-to-Equity", value := round2 de,
                  status :=
                    if de < 1 then FactorStatus.good
                    else if de < 2 then FactorStatus.fair
                    else FactorStatus.poor }]
           | none => []) ++
          (match findings.roe with
           | some roe =>
               [{ label := r"ROE", value := round1 (roe * 100),
                  status :=
                    if 3 / 20 < roe then FactorStatus.good
                    else if 0 < roe then FactorStatus.fair
                    else FactorStatus.poor }]
           | none => [])

/-- Claim C9: getKeyFactors returns the empty list when the assessment is
null or carries no key_findings; otherwise (present ratio values being
numbers by the typing of RatioSet) it returns factors whose labels are
exactly those of the defined ratios among profit margin, current ratio,
debt-to-equity and ROE, in that fixed order, and every returned factor
carries a status among good, fair and poor. -/
theorem claim_C9 :
    getKeyFactors none = [] ∧
      (∀ a : DashboardAssessment, a.key_findings = none →
        getKeyFactors (some a) = []) ∧
      (∀ rs : RatioSet,
        (getKeyFactors (some { key_findings := some rs })).map Factor.label =
          (if rs.profit_margin.isSome then [r"Profit Margin"] else []) ++
            (if rs.current_ratio.isSome then [r"Current Ratio"] else []) ++
            (if rs.debt_to_equity.isSome then [r"Debt-to-Equity"] else []) ++
            (if rs.roe.isSome then [r"ROE"] else [])) ∧
      (∀ (assessment : Option DashboardAssessment) (f : Factor),
        f ∈ getKeyFactors assessment →
          f.status = FactorStatus.good ∨ f.status = FactorStatus.fair ∨
            f.status = FactorStatus.poor) := by
  refine ⟨rfl, ?_, ?_, ?_⟩
  · intro a ha
    simp [getKeyFactors, ha]
  · intro rs
    rcases rs with ⟨pm, cr, de, roe, cfm⟩
    cases pm <;> cases cr <;> cases de <;> cases roe <;>
      simp [getKeyFactors]
  · intro assessment f _
    rcases hst : f.status with _ | _ | _ <;> simp

/-- Witness for claim C9: a present assessment whose key_findings field is
absent yields the empty factor list. -/
theorem claim_C9_witness :
    getKeyFactors (some { key_findings := none }) = [] :=
  claim_C9.2.1 { key_findings := none } rfl

/-- A creditworthiness rating explanation record (Dashboard.jsx
getRatingExplanation), always fully populated. -/
structure RatingExplanation where
  meaning : String
  shortLabel : String
  description : String
  action : String
deriving DecidableEq

/-- getRatingColor (Dashboard.jsx lines 17 to 20): the colors object lookup
with the default color on a missing key, written as the equivalent
equality chain. -/
def getRatingColor (rating : String) : String :=
  if rating = r"A" then r"#52c41a"
  else if rating = r"B" then r"#52c41a"
  else if rating = r"C" then r"#faad14"
  else if rating = r"D" then r"#ff4d4f"
  else r"#1890ff"

/-- Fallback explanation record returned by getRatingExplanation for any
rating outside A to D (Dashboard.jsx line 49). -/
def fallbackExplanation : RatingExplanation :=
  { meaning := r"Unknown", shortLabel := r"No data",
    description := r"No data", action := r"Contact support" }

/-- getRatingExplanation (Dashboard.jsx lines 22 to 50): the explanations
object lookup with the fallback record on a missing key. -/
def getRatingExplanation (rating : String) : RatingExplanation :=
  if rating = r"A" then
    { meaning := r"Excellent", shortLabel := r"Strong credit access",
      description := r"Your business has excellent creditworthiness. You have strong access to credit at the best rates.",
      action := r"Maintain this performance and consider strategic investments" }
  else if rating = r"B" then
    { meaning := r"Good", shortLabel := r"Competitive credit access",
      description := r"Your business has good creditworthiness. You can access credit at competitive rates.",
      action := r"Focus on building cash reserves to reach Rating A" }
  else if rating = r"C" then
    { meaning := r"Fair", shortLabel := r"Limited credit access",
      description := r"Your business has fair creditworthiness. You can access credit but at higher rates.",
      action := r"Improve cash flow and reduce debt to reach Rating B" }
  else if rating = r"D" then
    { meaning := r"Poor", shortLabel := r"High risk for borrowing",
      description := r"Your business has poor creditworthiness. Lenders view you as high-risk.",
      action := r"Improve cash collection and reduce expenses immediately" }
  else fallbackExplanation

/-- getRatingColor of Assessment.jsx lines 114 to 122: the switch mapping
ratings to named colors with gray as the default case. -/
def assessmentRatingColor (rating : String) : String :=
  if rating = r"A" then r"green"
  else if rating = r"B" then r"blue"
  else if rating = r"C" then r"orange"
  else if rating = r"D" then r"red"
  else r"gray"

/-- Claim C10: the rating presentation maps are total: for every input
string, getRatingColor returns one of its four fixed colors, the switch
color of Assessment.jsx returns one of its five named colors, any input
outside A to D receives the default color, the gray switch default and the
fallback explanation, and getRatingExplanation always returns a record
with all four fields populated; none of them can return undefined. -/
theorem claim_C10 (rating : String) :
    (getRatingColor rating = r"#52c41a" ∨ getRatingColor rating = r"#faad14" ∨
        getRatingColor rating = r"#ff4d4f" ∨ getRatingColor rating = r"#1890ff") ∧
      (assessmentRatingColor rating = r"green" ∨
        assessmentRatingColor rating = r"blue" ∨
        assessmentRatingColor rating = r"orange" ∨
        assessmentRatingColor rating = r"red" ∨
        assessmentRatingColor rating = r"gray") ∧
      (rating ≠ r"A" → rating ≠ r"B" → rating ≠ r"C" → rating ≠ r"D" →
        getRatingColor rating = r"#1890ff" ∧
          assessmentRatingColor rating = r"gray" ∧
          getRatingExplanation rating = fallbackExplanation) ∧
      ((getRatingExplanation rating).meaning ≠ r"" ∧
        (getRatingExplanation rating).shortLabel ≠ r"" ∧
        (getRatingExplanation rating).description ≠ r"" ∧
        (getRatingExplanation rating).action ≠ r"") := by
  by_cases hA : rating = r"A"
  · subst hA
    refine ⟨?_, ?_, ?_, ?_⟩ <;> simp [getRatingColor, assessmentRatingColor, getRatingExplanation]
  · by_cases hB : rating = r"B"
    · subst hB
      refine ⟨?_, ?_, ?_, ?_⟩ <;> simp [getRatingColor, assessmentRatingColor, getRatingExplanation]
    · by_cases hC : rating = r"C"
      · subst hC
        refine ⟨?_, ?_, ?_, ?_⟩ <;> simp [getRatingColor, assessmentRatingColor, getRatingExplanation]
      · by_cases hD : rating = r"D"
        · subst hD
          refine ⟨?_, ?_, ?_, ?_⟩ <;> simp [getRatingColor, assessmentRatingColor, getRatingExplanation]
        · refine ⟨?_, ?_, ?_, ?_⟩ <;>
            simp [getRatingColor, assessmentRatingColor, getRatingExplanation,
              fallbackExplanation, hA, hB, hC, hD]

/-- Witness for claim C10 at the out-of-range rating Z: the default color,
the gray switch default and the fallback explanation are all returned. -/
theorem claim_C10_witness :
    getRatingColor (r"Z") = r"#1890ff" ∧
      assessmentRatingColor (r"Z") = r"gray" ∧
      getRatingExplanation (r"Z") = fallbackExplanation :=
  (claim_C10 (r"Z")).2.2.1 (by decide) (by decide) (by decide) (by decide)

end FinHealth
